import Mathlib

/-!
# Shallow embedding of the multiverse_clicker batch generation drivers

The repository contains several near-duplicate command-line drivers that
batch-call a text-to-speech or image-generation HTTP API and write results to
local files:

* `generate_elevenlabs_audio.py` — the base streaming driver; its `generate`
  is wrapped in `tenacity. retry(wait_exponential(multiplier=1, min=4, max=60),
  stop_after_attempt(5), retry=is_http_429_error, reraise=True)`, and `main`
  skips a record when its output file already exists (any size).
* `generate_elevenlabs_audio_complete.py` — buffers the whole response;
  `generate_audio` hand-rolls a `for retry in range(MAX_RETRIES)` loop with
  `MAX_RETRIES = 3` and a constant `RETRY_DELAY = 2`, retrying any non-200
  status, any network error, and an empty (zero-byte) body; `main` skips a
  record when its file exists with size `>= 10000` and `--force` is off.
* `generate_elevenlabs_audio_fixed.py` — same 3-attempt loop, but checks that
  the first streamed chunk is non-empty; `main` skips when the file exists
  with size `> 0` (default, non `--retry` mode) and on error explicitly keeps
  whatever file was written ("so we can see which ones failed").
* `generate_vertex_images.py` — tenacity loop identical in shape to the base
  driver but retrying only `ResourceExhausted`; `main` skips when the output
  exists and catches all per-record exceptions.
* `elevenlabs_a2a_agent.py` — `ElevenLabsTextToSpeechTool.execute` sanitizes
  the filename (`pathlib.Path(name).name`, `os.path.splitext`, forced `.mp3`),
  truncates the output file to zero bytes *before* calling the base script's
  `generate`, and deletes zero-byte files on failure.

The embedding models byte strings by their lengths (the drivers only ever
inspect byte counts), the file system as an association list from output path
(relative to the output directory) to file size, and the provider as an
oracle giving the response to the n-th HTTP call of a record.  A streamed
response is a list of chunk sizes plus a flag telling whether the stream can
be read to the end; `tailOk = false` models a stream that raises after
delivering its chunks (e.g. a dropped connection), which in the scripts
happens outside the retry wrapper, while the file is being written.
-/

namespace Multiverse

/-- Result of classifying one provider call: either a value or an error, the
tagged form of "return" vs "raise" in the Python loops. -/
inductive GenResult (ε α : Type) where
  | ok (v : α)
  | err (e : ε)
deriving DecidableEq, Repr

/-- Aggregate observable behaviour of one generate-with-retry run: the final
result, how many times the provider was invoked, and the sequence of backoff
sleeps performed between attempts. -/
structure RunResult (ε α : Type) where
  result : GenResult ε α
  calls : Nat
  waits : List Nat
deriving DecidableEq, Repr

/-- Generic bounded retry loop shared by the tenacity-wrapped functions
(`@retry(... stop_after_attempt ...)`) and the hand-rolled
`for retry in range(MAX_RETRIES)` loops: attempt `n` with `rem` attempts
remaining; a retryable failure with attempts left sleeps `waitF n` and moves
on, a non-retryable failure or exhausted attempts re-raises, success returns.
tenacity numbers attempts from 1 and the `range` loops from 0; callers pick
the start index accordingly. -/
def retryLoop {ε α : Type} (call : Nat → GenResult ε α) (retryPred : ε → Bool)
    (waitF : Nat → Nat) : Nat → Nat → RunResult ε α
  | n, 0 => ⟨call n, 1, []⟩
  | n, 1 => ⟨call n, 1, []⟩
  | n, rem + 2 =>
    match call n with
    | .ok v => ⟨.ok v, 1, []⟩
    | .err e =>
      if retryPred e then
        let rest := retryLoop call retryPred waitF (n + 1) (rem + 1)
        ⟨rest.result, rest.calls + 1, waitF n :: rest.waits⟩
      else ⟨.err e, 1, []⟩

/-- The backoff sleeps performed by `retryLoop` when every attempt from
attempt `n` on fails retryably: one sleep per extra attempt. -/
def waitsFrom (w : Nat → Nat) : Nat → Nat → List Nat
  | _, 0 => []
  | n, m + 1 => w n :: waitsFrom w (n + 1) m

/-- File-system state: output path (relative to the output directory) mapped
to the byte size of the file stored there; absent key = absent file. -/
abbrev FS := List (String × Nat)

/-- `pathlib.Path.exists` / `stat().st_size` combined: size of the file at
`k`, or `none` when absent. -/
def fsGet : FS → String → Option Nat
  | [], _ => none
  | (k', v) :: rest, k => if k' = k then some v else fsGet rest k

/-- `open(path, "wb")` followed by writing `v` bytes: create or overwrite. -/
def fsSet : FS → String → Nat → FS
  | [], k, v => [(k, v)]
  | (k', v') :: rest, k, v =>
    if k' = k then (k, v) :: rest else (k', v') :: fsSet rest k v

/-- `os.remove(path)`. -/
def fsDel : FS → String → FS
  | [], _ => []
  | (k', v') :: rest, k =>
    if k' = k then fsDel rest k else (k', v') :: fsDel rest k

/-- `exists() and stat().st_size >= n`, the completeness check of the skip
policies (`n = 10000` in the complete variant, `n = 1` for `> 0`). -/
def fileAtLeast (fs : FS) (k : String) (n : Nat) : Bool :=
  match fsGet fs k with
  | some sz => decide (n ≤ sz)
  | none => false

/-- Per-record outcome reported by a driver: skipped (already complete),
generated with final byte size, or failed (error printed, batch continues). -/
inductive Outcome where
  | skipped
  | generated (size : Nat)
  | failed
deriving DecidableEq, Repr

def isFailed : Outcome → Bool
  | .failed => true
  | _ => false

/-- Result of processing one record: its outcome, the file system afterwards,
and how many provider calls were made for it. -/
structure StepResult where
  outcome : Outcome
  fs : FS
  calls : Nat
deriving DecidableEq, Repr

/-- Aggregate result of a whole batch run, in input order. -/
structure BatchResult where
  outcomes : List (String × Outcome)
  fs : FS
  totalCalls : Nat
deriving DecidableEq, Repr

/-- The `for entry in prompts:` loop shared by every `main`: records are
processed strictly in list order, each record's step sees the file system
left by the previous one, and no outcome ever aborts the loop. -/
def runBatch (step : FS → String → StepResult) : FS → List String → BatchResult
  | fs, [] => ⟨[], fs, 0⟩
  | fs, r :: rs =>
    let s := step fs r
    let rest := runBatch step s.fs rs
    ⟨(r, s.outcome) :: rest.outcomes, rest.fs, s.calls + rest.totalCalls⟩

/-! ## generate_elevenlabs_audio.py (base streaming variant) -/

/-- One HTTP exchange as the base script sees it: a status code together with
the streamed body (chunk sizes, and whether the stream survives to the end),
or a network-level `requests.RequestException`. -/
inductive RespE where
  | http (status : Nat) (chunks : List Nat) (tailOk : Bool)
  | netError
deriving DecidableEq, Repr

/-- Exceptions escaping one attempt of the base `generate`. -/
inductive ErrE where
  | httpError (status : Nat)
  | netError
deriving DecidableEq, Repr

/-- Body of one attempt of base `generate` (lines 61-81): POST, then
`r.raise_for_status()` (raises `HTTPError` for any status >= 400), then the
body iterator is returned unexamined — no emptiness check of any kind. -/
def classifyE : RespE → GenResult ErrE (List Nat × Bool)
  | .http s chunks tailOk =>
    if 400 ≤ s then .err (.httpError s) else .ok (chunks, tailOk)
  | .netError => .err .netError

/-- `is_http_429_error` (lines 41-43): retry exactly when the exception is an
`HTTPError` with status 429; any other exception is not retried. -/
def is_http_429_error : ErrE → Bool
  | .httpError s => s == 429
  | .netError => false

/-- `wait_exponential(multiplier=1, min=4, max=60)` before attempt `n + 1`:
`max(min_, min(multiplier * 2 ** attempt_number, max_))`. -/
def wait_exponential (n : Nat) : Nat := max 4 (min (2 ^ n) 60)

/-- Base `generate` under its tenacity decorator (lines 55-60):
`stop_after_attempt(5)`, retry only on HTTP 429, `reraise=True`. -/
def generateE (oracle : Nat → RespE) : RunResult ErrE (List Nat × Bool) :=
  retryLoop (fun n => classifyE (oracle n)) is_http_429_error wait_exponential 1 5

/-- One iteration of base `main`'s loop (lines 92-106): skip when the output
path exists (any size); otherwise call `generate` and stream the chunks into
the file; a failing `generate` is caught with the file untouched, while a
stream that breaks during the write leaves the bytes delivered so far. -/
def elevenStep (oracle : Nat → RespE) (fs : FS) (fname : String) : StepResult :=
  if (fsGet fs fname).isSome then ⟨.skipped, fs, 0⟩
  else
    let run := generateE oracle
    match run.result with
    | .ok (chunks, tailOk) =>
      if tailOk then ⟨.generated chunks.sum, fsSet fs fname chunks.sum, run.calls⟩
      else ⟨.failed, fsSet fs fname chunks.sum, run.calls⟩
    | .err _ => ⟨.failed, fs, run.calls⟩

/-- Whole base `main` batch over a list of record filenames; the oracle is
keyed by record so each record can have its own response pattern. -/
def runEleven (oracles : String → Nat → RespE) (fs : FS) (records : List String) :
    BatchResult :=
  runBatch (fun fs r => elevenStep (oracles r) fs r) fs records

/-! ## generate_elevenlabs_audio_complete.py -/

/-- One HTTP exchange as the complete variant sees it: the body is buffered in
full inside the `try`, so a mid-download failure surfaces as a
`RequestException`; a successful exchange is a status plus total byte count. -/
inductive RespC where
  | http (status : Nat) (size : Nat)
  | netError
deriving DecidableEq, Repr

/-- Exceptions raised by `generate_audio`. -/
inductive ErrC where
  | apiError (status : Nat)
  | emptyResponse
  | netError
deriving DecidableEq, Repr

def MAX_RETRIES : Nat := 3
def RETRY_DELAY : Nat := 2

/-- Body of one attempt of `generate_audio` (lines 46-96): non-200 status is
an error, a zero-byte body is an error even on HTTP 200
("Empty response from API"), otherwise the buffered bytes are returned. -/
def classifyC : RespC → GenResult ErrC Nat
  | .http s size =>
    if s = 200 then
      if size = 0 then .err .emptyResponse else .ok size
    else .err (.apiError s)
  | .netError => .err .netError

/-- `generate_audio`'s `for retry in range(MAX_RETRIES)` loop: every error
(API status, empty body, network) is retried after a constant
`RETRY_DELAY = 2` sleep until attempts run out, then re-raised. -/
def generate_audio (oracle : Nat → RespC) : RunResult ErrC Nat :=
  retryLoop (fun n => classifyC (oracle n)) (fun _ => true) (fun _ => RETRY_DELAY)
    0 MAX_RETRIES

/-- One iteration of complete `main`'s loop (lines 126-155): skip when
`not force and exists and st_size >= 10000`; on success the whole buffer is
written at once; on failure nothing is written and nothing is deleted. -/
def completeStep (force : Bool) (oracle : Nat → RespC) (fs : FS) (fname : String) :
    StepResult :=
  if !force && fileAtLeast fs fname 10000 then ⟨.skipped, fs, 0⟩
  else
    let run := generate_audio oracle
    match run.result with
    | .ok size => ⟨.generated size, fsSet fs fname size, run.calls⟩
    | .err _ => ⟨.failed, fs, run.calls⟩

def runComplete (force : Bool) (oracles : String → Nat → RespC) (fs : FS)
    (records : List String) : BatchResult :=
  runBatch (fun fs r => completeStep force (oracles r) fs r) fs records

/-! ## generate_elevenlabs_audio_fixed.py -/

/-- Body of one attempt of the fixed variant's `generate` (lines 181-236):
non-200 is an error, a missing or empty first chunk is an error
(`if not first_chunk`), otherwise the stream is returned. -/
def classifyF : RespE → GenResult ErrC (List Nat × Bool)
  | .http s chunks tailOk =>
    if s = 200 then
      match chunks.head? with
      | none => .err .emptyResponse
      | some c => if c = 0 then .err .emptyResponse else .ok (chunks, tailOk)
    else .err (.apiError s)
  | .netError => .err .netError

/-- The fixed variant's `generate` retry loop: same shape as the complete
variant (3 attempts, constant 2 second sleep, every error retried). -/
def generateF (oracle : Nat → RespE) : RunResult ErrC (List Nat × Bool) :=
  retryLoop (fun n => classifyF (oracle n)) (fun _ => true) (fun _ => RETRY_DELAY)
    0 MAX_RETRIES

/-- One iteration of fixed `main`'s loop (lines 271-301) in its default
(non `--retry`) mode: skip when the file exists with `st_size > 0`; on error
the comment says "We don't remove the file, so we can see which ones failed",
so a stream broken during the write leaves the partial file in place.  The
`--retry` mode's pre-filtering of the prompt list to zero-byte files is not
modelled; the claims concern the default mode. -/
def fixedStep (retryMode : Bool) (oracle : Nat → RespE) (fs : FS) (fname : String) :
    StepResult :=
  if !retryMode && fileAtLeast fs fname 1 then ⟨.skipped, fs, 0⟩
  else
    let run := generateF oracle
    match run.result with
    | .ok (chunks, tailOk) =>
      if tailOk then ⟨.generated chunks.sum, fsSet fs fname chunks.sum, run.calls⟩
      else ⟨.failed, fsSet fs fname chunks.sum, run.calls⟩
    | .err _ => ⟨.failed, fs, run.calls⟩

def runFixed (retryMode : Bool) (oracles : String → Nat → RespE) (fs : FS)
    (records : List String) : BatchResult :=
  runBatch (fun fs r => fixedStep retryMode (oracles r) fs r) fs records

/-! ## generate_vertex_images.py -/

/-- One call of `model.generate_images` plus the `img.save` loop: success with
the saved byte size, `ResourceExhausted`, or any other exception. -/
inductive RespV where
  | ok (size : Nat)
  | resourceExhausted
  | otherError
deriving DecidableEq, Repr

inductive ErrV where
  | resourceExhausted
  | otherError
deriving DecidableEq, Repr

def classifyV : RespV → GenResult ErrV Nat
  | .ok size => .ok size
  | .resourceExhausted => .err .resourceExhausted
  | .otherError => .err .otherError

/-- The vertex retry predicate (line 270): retry exactly when the exception is
`ResourceExhausted`. -/
def isResourceExhausted : ErrV → Bool
  | .resourceExhausted => true
  | .otherError => false

/-- `generate_and_save_image_with_retry` (lines 267-291) under its tenacity
decorator: `wait_exponential(multiplier=1, min=4, max=60)`,
`stop_after_attempt(5)`, retry only on `ResourceExhausted`, `reraise=True`. -/
def generate_and_save_image_with_retry (oracle : Nat → RespV) : RunResult ErrV Nat :=
  retryLoop (fun n => classifyV (oracle n)) isResourceExhausted wait_exponential 1 5

/-- One iteration of vertex `main`'s loop (lines 293-337) for `--n 1`: skip
when the output exists; both `except ResourceExhausted` and `except Exception`
print and `continue`, so a failure leaves the file system untouched (the save
happens inside the retried function only on success). -/
def vertexStep (oracle : Nat → RespV) (fs : FS) (fname : String) : StepResult :=
  if (fsGet fs fname).isSome then ⟨.skipped, fs, 0⟩
  else
    let run := generate_and_save_image_with_retry oracle
    match run.result with
    | .ok size => ⟨.generated size, fsSet fs fname size, run.calls⟩
    | .err _ => ⟨.failed, fs, run.calls⟩

def runVertex (oracles : String → Nat → RespV) (fs : FS) (records : List String) :
    BatchResult :=
  runBatch (fun fs r => vertexStep (oracles r) fs r) fs records

/-! ## Path handling

`PurePosixPath` semantics at the granularity the scripts use: a path is its
list of components; parsing drops empty components and `"."` (as pathlib
does) but keeps `".."`; `outdir / fname` concatenates component lists; the
operating system resolves `".."` components when the path is used. -/

/-- Split a character list at `'/'`. -/
def splitSlash (acc : List Char) : List Char → List (List Char)
  | [] => [acc.reverse]
  | c :: cs =>
    if c = '/' then acc.reverse :: splitSlash [] cs else splitSlash (c :: acc) cs

/-- Components of a path string, pathlib-style: `'/'`-separated, with empty
components and `"."` dropped and `".."` kept. -/
def pathComponents (s : String) : List String :=
  ((splitSlash [] s.data).map (fun cs => String.mk cs)).filter
    (fun c => c != "" && c != ".")

/-- `pathlib.Path(s).name`: the last component of the path. -/
def pathlibName (s : String) : String := (pathComponents s).getLastD ("")

/-- Index of the last `'.'` in a character list, if any. -/
def lastDotIdx (cs : List Char) : Option Nat :=
  match cs.reverse.findIdx? (fun c => c == '.') with
  | none => none
  | some k => some (cs.length - 1 - k)

/-- `os.path.splitext` on a basename: split at the last dot, except that
leading dots alone never form an extension (`splitext(".bashrc") =
(".bashrc", "")`). -/
def splitextChars (cs : List Char) : List Char × List Char :=
  match lastDotIdx cs with
  | none => (cs, [])
  | some i =>
    if (cs.take i).all (fun c => c == '.') then (cs, [])
    else (cs.take i, cs.drop i)

def splitext (s : String) : String × String :=
  (String.mk (splitextChars s.data).1, String.mk (splitextChars s.data).2)

/-- The sanitized output filename computed by
`ElevenLabsTextToSpeechTool.execute` (lines 92-95):
`pathlib.Path(prompt.filename).name`, then `os.path.splitext`, then the
root with `".mp3"` appended. -/
def a2aOutputFilename (s : String) : String :=
  (splitext (pathlibName s)).1 ++ ".mp3"

/-- The path the A2A tool writes to: `output_dir_path / output_filename`. -/
def resolveA2A (outdir : List String) (fname : String) : List String :=
  outdir ++ [a2aOutputFilename fname]

/-- The path the CLI drivers write to: `outdir / entry["filename"]` with no
sanitization (base `main` line 94, vertex `main` line 319). -/
def resolveCLI (outdir : List String) (fname : String) : List String :=
  outdir ++ pathComponents fname

/-- One step of operating-system path normalization: push a component, or pop
on `".."` (a `".."` that cannot be popped, on a relative path, is kept and
escapes upward).  The accumulator holds the components seen so far in
reverse. -/
def normStep (acc : List String) (c : String) : List String :=
  if c = ".." then
    match acc with
    | [] => [".."]
    | a :: rest => if a = ".." then c :: a :: rest else rest
  else c :: acc

def normRun (acc : List String) : List String → List String
  | [] => acc
  | c :: cs => normRun (normStep acc c) cs

/-- Resolve `".."` components the way the operating system does when the file
is opened. -/
def normalizeParts (cs : List String) : List String := (normRun [] cs).reverse

/-- `dir` is a proper prefix of `p`: the file at `p` lies strictly inside the
directory `dir`. -/
def strictUnder : List String → List String → Bool
  | [], [] => false
  | [], _ :: _ => true
  | _ :: _, [] => false
  | d :: ds, c :: cs => d == c && strictUnder ds cs

/-- The resolved path stays strictly inside the output directory. -/
def isStrictlyWithin (dir p : List String) : Bool :=
  strictUnder dir (normalizeParts p)

/-! ## elevenlabs_a2a_agent.py -/

/-- The "Create zero-byte file first" write of
`ElevenLabsTextToSpeechTool.execute` (lines 106-108): `open(out_path, "wb")`
immediately closed, truncating whatever was at the sanitized output path to
zero bytes — performed before `generate` is invoked. -/
def a2aPreCall (fs : FS) (fname : String) : FS :=
  fsSet fs (a2aOutputFilename fname) 0

/-- One prompt of `ElevenLabsTextToSpeechTool.execute` (lines 83-147): no
eligibility check of any kind; the output slot is truncated, then the base
script's `generate` is called; a successful non-empty stream is written and
reported; a zero-byte result (empty stream, or failure before any byte) is
removed and reported as an error; a stream broken mid-write keeps its partial
bytes unless they amount to zero. -/
def a2aStep (oracle : Nat → RespE) (fs : FS) (fname : String) : StepResult :=
  let path := a2aOutputFilename fname
  let fs0 := a2aPreCall fs fname
  let run := generateE oracle
  match run.result with
  | .ok (chunks, tailOk) =>
    let size := chunks.sum
    if tailOk then
      if size = 0 then ⟨.failed, fsDel fs0 path, run.calls⟩
      else ⟨.generated size, fsSet fs0 path size, run.calls⟩
    else
      if size = 0 then ⟨.failed, fsDel (fsSet fs0 path size) path, run.calls⟩
      else ⟨.failed, fsSet fs0 path size, run.calls⟩
  | .err _ => ⟨.failed, fsDel fs0 path, run.calls⟩

/-! ## File-system lemmas -/

theorem fsGet_fsSet_self (fs : FS) (k : String) (v : Nat) :
    fsGet (fsSet fs k v) k = some v := by
  induction fs with
  | nil => simp [fsSet, fsGet]
  | cons p rest ih =>
    obtain ⟨k', v'⟩ := p
    by_cases h : k' = k
    · simp [fsSet, fsGet, h]
    · simp [fsSet, fsGet, h, ih]

theorem fsGet_fsSet_ne (fs : FS) {k x : String} (v : Nat) (h : x ≠ k) :
    fsGet (fsSet fs k v) x = fsGet fs x := by
  induction fs with
  | nil => simp [fsSet, fsGet, Ne.symm h]
  | cons p rest ih =>
    obtain ⟨k', v'⟩ := p
    by_cases h1 : k' = k
    · subst h1
      simp [fsSet, fsGet, Ne.symm h]
    · by_cases h2 : k' = x <;> simp [fsSet, fsGet, h, h1, h2, ih]

theorem fsGet_fsDel_self (fs : FS) (k : String) : fsGet (fsDel fs k) k = none := by
  induction fs with
  | nil => simp [fsDel, fsGet]
  | cons p rest ih =>
    obtain ⟨k', v'⟩ := p
    by_cases h : k' = k <;> simp [fsDel, fsGet, h, ih]

theorem fsGet_fsSet_isSome (fs : FS) (k x : String) (v : Nat)
    (h : (fsGet fs x).isSome = true) : (fsGet (fsSet fs k v) x).isSome = true := by
  by_cases hx : x = k
  · subst hx
    simp [fsGet_fsSet_self]
  · rw [fsGet_fsSet_ne fs v hx]
    exact h

theorem fileAtLeast_iff (fs : FS) (k : String) (n : Nat) :
    fileAtLeast fs k n = true ↔ ∃ sz, fsGet fs k = some sz ∧ n ≤ sz := by
  unfold fileAtLeast
  rcases h : fsGet fs k with _ | sz <;> simp [h]

/-! ## Retry-loop lemmas -/

theorem retryLoop_const_err {ε α : Type} (call : Nat → GenResult ε α) (p : ε → Bool)
    (w : Nat → Nat) (e : ε) (hc : ∀ i, call i = .err e) (hp : p e = true) :
    ∀ rem n, retryLoop call p w n (rem + 1) =
      ⟨.err e, rem + 1, waitsFrom w n rem⟩ := by
  intro rem
  induction rem with
  | zero =>
    intro n
    simp [retryLoop, waitsFrom, hc n]
  | succ m ih =>
    intro n
    show retryLoop call p w n (m + 2) = _
    simp [retryLoop, waitsFrom, hc n, hp, ih (n + 1)]

theorem retryLoop_first_ok {ε α : Type} (call : Nat → GenResult ε α) (p : ε → Bool)
    (w : Nat → Nat) (v : α) :
    ∀ j rem n, j < rem →
      (∀ i, i < j → ∃ e, call (n + i) = .err e ∧ p e = true) →
      call (n + j) = .ok v →
      (retryLoop call p w n rem).result = .ok v ∧
      (retryLoop call p w n rem).calls = j + 1 := by
  intro j
  induction j with
  | zero =>
    intro rem n hlt _ hok
    rw [Nat.add_zero] at hok
    obtain ⟨m, rfl⟩ : ∃ m, rem = m + 1 := ⟨rem - 1, by omega⟩
    rcases m with _ | m'
    · simp [retryLoop, hok]
    · show (retryLoop call p w n (m' + 2)).result = .ok v ∧
        (retryLoop call p w n (m' + 2)).calls = 0 + 1
      simp [retryLoop, hok]
  | succ j ih =>
    intro rem n hlt hfail hok
    obtain ⟨e, he, hpe⟩ := hfail 0 (Nat.succ_pos j)
    rw [Nat.add_zero] at he
    obtain ⟨m, rfl⟩ : ∃ m, rem = m + 2 := ⟨rem - 2, by omega⟩
    have hfail' : ∀ i, i < j → ∃ e, call (n + 1 + i) = .err e ∧ p e = true := by
      intro i hi
      have h := hfail (i + 1) (by omega)
      have heq : n + (i + 1) = n + 1 + i := by omega
      rwa [heq] at h
    have hok' : call (n + 1 + j) = .ok v := by
      have heq : n + (j + 1) = n + 1 + j := by omega
      rwa [heq] at hok
    have hrec := ih (m + 1) (n + 1) (by omega) hfail' hok'
    simp [retryLoop, he, hpe, hrec.1, hrec.2]

theorem retryLoop_first_err_stop {ε α : Type} (call : Nat → GenResult ε α)
    (p : ε → Bool) (w : Nat → Nat) (e : ε) (n : Nat)
    (hc : call n = .err e) (hp : p e = false) :
    ∀ rem, retryLoop call p w n rem = ⟨.err e, 1, []⟩ := by
  intro rem
  rcases rem with _ | _ | m <;> simp [retryLoop, hc, hp]

theorem retryLoop_calls_pos {ε α : Type} (call : Nat → GenResult ε α) (p : ε → Bool)
    (w : Nat → Nat) (n rem : Nat) : 1 ≤ (retryLoop call p w n rem).calls := by
  rcases rem with _ | _ | m
  · simp [retryLoop]
  · simp [retryLoop]
  · rcases hc : call n with v | e
    · simp [retryLoop, hc]
    · rcases hp : p e with _ | _ <;> simp [retryLoop, hc, hp]

theorem retryLoop_ok_exists {ε α : Type} (call : Nat → GenResult ε α) (p : ε → Bool)
    (w : Nat → Nat) (v : α) :
    ∀ rem n, (retryLoop call p w n rem).result = .ok v → ∃ i, call i = .ok v := by
  intro rem
  induction rem with
  | zero =>
    intro n h
    exact ⟨n, by simpa [retryLoop] using h⟩
  | succ m ih =>
    intro n h
    rcases m with _ | m'
    · exact ⟨n, by simpa [retryLoop] using h⟩
    · rw [show m' + 1 + 1 = m' + 2 from rfl] at h
      rcases hc : call n with v' | e
      · simp [retryLoop, hc] at h
        exact ⟨n, by rw [hc, h]⟩
      · rcases hp : p e with _ | _
        · simp [retryLoop, hc, hp] at h
        · simp [retryLoop, hc, hp] at h
          exact ih (n + 1) h

/-! ## Batch-loop lemmas -/

theorem runBatch_outcomes_fst (step : FS → String → StepResult) :
    ∀ (records : List String) (fs : FS),
      ((runBatch step fs records).outcomes).map Prod.fst = records := by
  intro records
  induction records with
  | nil => intro fs; simp [runBatch]
  | cons r rs ih => intro fs; simp [runBatch, ih]

theorem runBatch_preserves (step : FS → String → StepResult) (good : FS → Prop)
    (hstep : ∀ fs r, good fs → good (step fs r).fs) :
    ∀ records fs, good fs → good (runBatch step fs records).fs := by
  intro records
  induction records with
  | nil => intro fs h; simpa [runBatch] using h
  | cons r rs ih =>
    intro fs h
    simpa [runBatch] using ih (step fs r).fs (hstep fs r h)

theorem runBatch_good_after (step : FS → String → StepResult)
    (good : FS → String → Prop)
    (hmono : ∀ fs r x, good fs x → good (step fs r).fs x)
    (hest : ∀ fs r, (step fs r).outcome ≠ Outcome.failed → good (step fs r).fs r) :
    ∀ records fs,
      (∀ q ∈ (runBatch step fs records).outcomes, q.2 ≠ Outcome.failed) →
      ∀ r ∈ records, good (runBatch step fs records).fs r := by
  intro records
  induction records with
  | nil =>
    intro fs _ r hr
    simp at hr
  | cons a rs ih =>
    intro fs hok
    have h1 : (step fs a).outcome ≠ Outcome.failed := by
      apply hok (a, (step fs a).outcome)
      simp [runBatch]
    have h2 : ∀ q ∈ (runBatch step (step fs a).fs rs).outcomes,
        q.2 ≠ Outcome.failed := by
      intro q hq
      apply hok q
      simp [runBatch, hq]
    intro r hr
    rcases List.mem_cons.mp hr with rfl | hr'
    · have hg : good (step fs r).fs r := hest fs r h1
      have hpres := runBatch_preserves step (fun s => good s r)
        (fun s r' h => hmono s r' r h) rs (step fs r).fs hg
      simpa [runBatch] using hpres
    · have := ih (step fs a).fs h2 r hr'
      simpa [runBatch] using this

theorem runBatch_all_skip (step : FS → String → StepResult)
    (good : FS → String → Prop)
    (hskip : ∀ fs r, good fs r → step fs r = ⟨.skipped, fs, 0⟩) :
    ∀ records fs, (∀ r ∈ records, good fs r) →
      runBatch step fs records =
        ⟨records.map (fun r => (r, Outcome.skipped)), fs, 0⟩ := by
  intro records
  induction records with
  | nil => intro fs _; simp [runBatch]
  | cons a rs ih =>
    intro fs h
    have ha := hskip fs a (h a (List.mem_cons_self a rs))
    have hrs := ih fs (fun r hr => h r (List.mem_cons_of_mem a hr))
    simp [runBatch, ha, hrs]

/-! ## Variant-specific lemmas -/

theorem classifyE_rate_limited {r : RespE} (c : List Nat) (t : Bool)
    (h : r = RespE.http 429 c t) : classifyE r = .err (.httpError 429) := by
  subst h
  simp [classifyE]

/-- Under an always-429 provider, the base tenacity wrapper makes exactly 5
calls, sleeps the clamped exponential waits, and re-raises the 429 error. -/
theorem generateE_all429 (oracle : Nat → RespE)
    (h : ∀ n, ∃ c t, oracle n = RespE.http 429 c t) :
    generateE oracle =
      ⟨.err (.httpError 429), 5, waitsFrom wait_exponential 1 4⟩ := by
  have hc : ∀ i, (fun n => classifyE (oracle n)) i = .err (.httpError 429) := by
    intro i
    obtain ⟨c, t, hi⟩ := h i
    exact classifyE_rate_limited c t hi
  exact retryLoop_const_err _ is_http_429_error wait_exponential _ hc rfl 4 1

/-- Under an always-429 provider, the complete variant's hand-rolled loop
makes exactly `MAX_RETRIES = 3` calls with constant 2-second sleeps and then
raises the API error. -/
theorem generate_audio_all429 (oracle : Nat → RespC)
    (h : ∀ n, ∃ sz, oracle n = RespC.http 429 sz) :
    generate_audio oracle =
      ⟨.err (.apiError 429), 3, waitsFrom (fun _ => RETRY_DELAY) 0 2⟩ := by
  have hc : ∀ i, (fun n => classifyC (oracle n)) i = .err (.apiError 429) := by
    intro i
    obtain ⟨sz, hi⟩ := h i
    simp [classifyC, hi]
  exact retryLoop_const_err _ (fun _ => true) (fun _ => RETRY_DELAY) _ hc rfl 2 0

theorem elevenStep_skip (oracle : Nat → RespE) (fs : FS) (r : String)
    (h : (fsGet fs r).isSome = true) :
    elevenStep oracle fs r = ⟨.skipped, fs, 0⟩ := by
  simp [elevenStep, h]

theorem elevenStep_mono (oracle : Nat → RespE) (fs : FS) (r x : String)
    (h : (fsGet fs x).isSome = true) :
    (fsGet (elevenStep oracle fs r).fs x).isSome = true := by
  by_cases hg : (fsGet fs r).isSome = true
  · rw [elevenStep_skip oracle fs r hg]
    exact h
  · rcases hres : (generateE oracle).result with v | e
    · obtain ⟨chunks, t⟩ := v
      rcases t with _ | _ <;>
        simpa [elevenStep, hg, hres] using fsGet_fsSet_isSome fs r x chunks.sum h
    · simpa [elevenStep, hg, hres] using h

theorem elevenStep_establish (oracle : Nat → RespE) (fs : FS) (r : String)
    (h : (elevenStep oracle fs r).outcome ≠ Outcome.failed) :
    (fsGet (elevenStep oracle fs r).fs r).isSome = true := by
  by_cases hg : (fsGet fs r).isSome = true
  · rw [elevenStep_skip oracle fs r hg]
    exact hg
  · rcases hres : (generateE oracle).result with v | e
    · obtain ⟨chunks, t⟩ := v
      rcases t with _ | _
      · exact absurd (by simp [elevenStep, hg, hres]) h
      · simp [elevenStep, hg, hres, fsGet_fsSet_self]
    · exact absurd (by simp [elevenStep, hg, hres]) h

theorem completeStep_skip (oracle : Nat → RespC) (fs : FS) (r : String)
    (h : fileAtLeast fs r 10000 = true) :
    completeStep false oracle fs r = ⟨.skipped, fs, 0⟩ := by
  simp [completeStep, h]

theorem completeStep_result_large (oracle : Nat → RespC) (sz : Nat)
    (hsz : ∀ i s, classifyC (oracle i) = .ok s → 10000 ≤ s)
    (hres : (generate_audio oracle).result = .ok sz) : 10000 ≤ sz := by
  obtain ⟨i, hi⟩ := retryLoop_ok_exists (fun n => classifyC (oracle n))
    (fun _ => true) (fun _ => RETRY_DELAY) sz MAX_RETRIES 0 hres
  exact hsz i sz hi

theorem completeStep_mono (oracle : Nat → RespC) (fs : FS) (r x : String)
    (hsz : ∀ i s, classifyC (oracle i) = .ok s → 10000 ≤ s)
    (h : ∃ sz, fsGet fs x = some sz ∧ 10000 ≤ sz) :
    ∃ sz, fsGet (completeStep false oracle fs r).fs x = some sz ∧ 10000 ≤ sz := by
  by_cases hg : fileAtLeast fs r 10000 = true
  · rw [completeStep_skip oracle fs r hg]
    exact h
  · rcases hres : (generate_audio oracle).result with sz | e
    · by_cases hx : x = r
      · subst hx
        refine ⟨sz, ?_, completeStep_result_large oracle sz hsz hres⟩
        simp [completeStep, hg, hres, fsGet_fsSet_self]
      · obtain ⟨s0, hs0, hs0le⟩ := h
        refine ⟨s0, ?_, hs0le⟩
        simp only [completeStep, hg]
        simp [hres, fsGet_fsSet_ne fs sz hx, hs0]
    · simpa [completeStep, hg, hres] using h

theorem completeStep_establish (oracle : Nat → RespC) (fs : FS) (r : String)
    (hsz : ∀ i s, classifyC (oracle i) = .ok s → 10000 ≤ s)
    (h : (completeStep false oracle fs r).outcome ≠ Outcome.failed) :
    ∃ sz, fsGet (completeStep false oracle fs r).fs r = some sz ∧ 10000 ≤ sz := by
  by_cases hg : fileAtLeast fs r 10000 = true
  · rw [completeStep_skip oracle fs r hg]
    exact (fileAtLeast_iff fs r 10000).mp hg
  · rcases hres : (generate_audio oracle).result with sz | e
    · refine ⟨sz, ?_, completeStep_result_large oracle sz hsz hres⟩
      simp [completeStep, hg, hres, fsGet_fsSet_self]
    · exact absurd (by simp [completeStep, hg, hres]) h

theorem classifyF_ok_pos {r : RespE} {chunks : List Nat} {t : Bool}
    (h : classifyF r = .ok (chunks, t)) : 1 ≤ chunks.sum := by
  rcases r with ⟨s, cs, t'⟩ | _
  · by_cases hs : s = 200
    · rcases hh : cs.head? with _ | c
      · simp [classifyF, hs, hh] at h
      · by_cases hc : c = 0
        · simp [classifyF, hs, hh, hc] at h
        · simp [classifyF, hs, hh, hc] at h
          obtain ⟨h1, h2⟩ := h
          subst h1
          rcases cs with _ | ⟨c0, rest⟩
          · simp at hh
          · simp at hh
            subst hh
            simp only [List.sum_cons]
            omega
    · simp [classifyF, hs] at h
  · simp [classifyF] at h

/-- A successful run of the fixed variant's `generate` always delivers at
least one byte: its first-chunk check rejects empty streams. -/
theorem generateF_ok_pos (oracle : Nat → RespE) (chunks : List Nat) (t : Bool)
    (h : (generateF oracle).result = .ok (chunks, t)) : 1 ≤ chunks.sum := by
  obtain ⟨i, hi⟩ := retryLoop_ok_exists (fun n => classifyF (oracle n))
    (fun _ => true) (fun _ => RETRY_DELAY) (chunks, t) MAX_RETRIES 0 h
  exact classifyF_ok_pos hi

theorem fixedStep_skip (oracle : Nat → RespE) (fs : FS) (r : String)
    (h : fileAtLeast fs r 1 = true) :
    fixedStep false oracle fs r = ⟨.skipped, fs, 0⟩ := by
  simp [fixedStep, h]

theorem fixedStep_mono (oracle : Nat → RespE) (fs : FS) (r x : String)
    (h : ∃ sz, fsGet fs x = some sz ∧ 1 ≤ sz) :
    ∃ sz, fsGet (fixedStep false oracle fs r).fs x = some sz ∧ 1 ≤ sz := by
  by_cases hg : fileAtLeast fs r 1 = true
  · rw [fixedStep_skip oracle fs r hg]
    exact h
  · rcases hres : (generateF oracle).result with v | e
    · obtain ⟨chunks, t⟩ := v
      by_cases hx : x = r
      · subst hx
        refine ⟨chunks.sum, ?_, generateF_ok_pos oracle chunks t hres⟩
        rcases t with _ | _ <;> simp [fixedStep, hg, hres, fsGet_fsSet_self]
      · obtain ⟨s0, hs0, hs0le⟩ := h
        refine ⟨s0, ?_, hs0le⟩
        rcases t with _ | _ <;>
          simp [fixedStep, hg, hres, fsGet_fsSet_ne fs chunks.sum hx, hs0]
    · simpa [fixedStep, hg, hres] using h

theorem fixedStep_establish (oracle : Nat → RespE) (fs : FS) (r : String)
    (h : (fixedStep false oracle fs r).outcome ≠ Outcome.failed) :
    ∃ sz, fsGet (fixedStep false oracle fs r).fs r = some sz ∧ 1 ≤ sz := by
  by_cases hg : fileAtLeast fs r 1 = true
  · rw [fixedStep_skip oracle fs r hg]
    exact (fileAtLeast_iff fs r 1).mp hg
  · rcases hres : (generateF oracle).result with v | e
    · obtain ⟨chunks, t⟩ := v
      rcases t with _ | _
      · exact absurd (by simp [fixedStep, hg, hres]) h
      · refine ⟨chunks.sum, ?_, generateF_ok_pos oracle chunks true hres⟩
        simp [fixedStep, hg, hres, fsGet_fsSet_self]
    · exact absurd (by simp [fixedStep, hg, hres]) h

theorem a2aStep_calls (oracle : Nat → RespE) (fs : FS) (fname : String) :
    (a2aStep oracle fs fname).calls = (generateE oracle).calls := by
  rcases hres : (generateE oracle).result with v | e
  · obtain ⟨chunks, t⟩ := v
    rcases t with _ | _ <;> by_cases hsz : chunks.sum = 0 <;>
      simp [a2aStep, hres, hsz]
  · simp [a2aStep, hres]

/-! ## Path lemmas -/

theorem a2aOutputFilename_ne_dotdot (fname : String) :
    a2aOutputFilename fname ≠ ".." := by
  intro h
  have hlen := congrArg String.length h
  rw [a2aOutputFilename, String.length_append] at hlen
  have h4 : (".mp3" : String).length = 4 := rfl
  have h2 : ((".." : String)).length = 2 := rfl
  rw [h4, h2] at hlen
  omega

theorem normRun_append (acc xs ys : List String) :
    normRun acc (xs ++ ys) = normRun (normRun acc xs) ys := by
  induction xs generalizing acc with
  | nil => simp [normRun]
  | cons c cs ih => simp [normRun, ih]

theorem normalizeParts_snoc (dir : List String) (x : String)
    (hdir : normalizeParts dir = dir) (hx : x ≠ "..") :
    normalizeParts (dir ++ [x]) = dir ++ [x] := by
  have hrun : normRun [] dir = dir.reverse := by
    have h := congrArg List.reverse hdir
    simpa [normalizeParts] using h
  unfold normalizeParts
  rw [normRun_append, hrun]
  simp [normRun, normStep, hx]

theorem strictUnder_snoc (dir : List String) (x : String) :
    strictUnder dir (dir ++ [x]) = true := by
  induction dir with
  | nil => rfl
  | cons d ds ih => simp [strictUnder, ih]

/-! ## Claims -/

/-- C1: For every record whose resolved output path already exists with size
at or above the completeness threshold (any existing file in the base
variant, 10000 bytes in the complete variant, any non-empty file in the fixed
variant), with force regeneration off, the driver does not invoke the
generation collaborator for that record (0 calls) and records the outcome
skipped, leaving the file system unchanged. -/
theorem C1_skip_existing_output :
    (∀ (oracle : Nat → RespE) (fs : FS) (fname : String) (sz : Nat),
      fsGet fs fname = some sz →
      elevenStep oracle fs fname = ⟨.skipped, fs, 0⟩) ∧
    (∀ (oracle : Nat → RespC) (fs : FS) (fname : String) (sz : Nat),
      fsGet fs fname = some sz → 10000 ≤ sz →
      completeStep false oracle fs fname = ⟨.skipped, fs, 0⟩) ∧
    (∀ (oracle : Nat → RespE) (fs : FS) (fname : String) (sz : Nat),
      fsGet fs fname = some sz → 1 ≤ sz →
      fixedStep false oracle fs fname = ⟨.skipped, fs, 0⟩) := by
  refine ⟨?_, ?_, ?_⟩
  · intro oracle fs fname sz h
    exact elevenStep_skip oracle fs fname (by simp [h])
  · intro oracle fs fname sz h hle
    exact completeStep_skip oracle fs fname
      ((fileAtLeast_iff fs fname 10000).mpr ⟨sz, h, hle⟩)
  · intro oracle fs fname sz h hle
    have hfa : fileAtLeast fs fname 1 = true :=
      (fileAtLeast_iff fs fname 1).mpr ⟨sz, h, hle⟩
    simp [fixedStep, hfa]

/-- Witness for C1: concrete records whose outputs already pass each
variant's completeness check are skipped with zero collaborator calls. -/
theorem C1_skip_existing_output_witness :
    elevenStep (fun _ => RespE.netError) [("a.mp3", 5)] ("a.mp3") =
      ⟨.skipped, [("a.mp3", 5)], 0⟩ ∧
    completeStep false (fun _ => RespC.netError) [("b.mp3", 12000)] ("b.mp3") =
      ⟨.skipped, [("b.mp3", 12000)], 0⟩ ∧
    fixedStep false (fun _ => RespE.netError) [("c.mp3", 3)] ("c.mp3") =
      ⟨.skipped, [("c.mp3", 3)], 0⟩ :=
  ⟨C1_skip_existing_output.1 _ _ _ 5 (by decide),
   C1_skip_existing_output.2.1 _ _ _ 12000 (by decide) (by decide),
   C1_skip_existing_output.2.2 _ _ _ 3 (by decide) (by decide)⟩

/-- C2: Under a provider that returns a rate-limited (HTTP 429)
classification on every call, the base driver invokes the collaborator
exactly its configured 5 attempts, with inter-attempt delays [4, 4, 8, 16]
(non-decreasing and capped at the configured 60-second maximum), then fails
the record; the complete variant makes exactly its configured 3 attempts with
constant 2-second delays and likewise fails the record. -/
theorem C2_rate_limited_exhausts_attempts :
    (∀ oracle : Nat → RespE, (∀ n, ∃ c t, oracle n = RespE.http 429 c t) →
      (generateE oracle).calls = 5 ∧
      (generateE oracle).result = .err (.httpError 429) ∧
      (generateE oracle).waits = [4, 4, 8, 16] ∧
      List.Pairwise (· ≤ ·) (generateE oracle).waits ∧
      (∀ w ∈ (generateE oracle).waits, w ≤ 60) ∧
      (∀ (fs : FS) (fname : String), fsGet fs fname = none →
        (elevenStep oracle fs fname).outcome = Outcome.failed ∧
        (elevenStep oracle fs fname).calls = 5)) ∧
    (∀ oracle : Nat → RespC, (∀ n, ∃ sz, oracle n = RespC.http 429 sz) →
      (generate_audio oracle).calls = 3 ∧
      (generate_audio oracle).result = .err (.apiError 429) ∧
      (generate_audio oracle).waits = [2, 2] ∧
      List.Pairwise (· ≤ ·) (generate_audio oracle).waits ∧
      (∀ (fs : FS) (fname : String), fsGet fs fname = none →
        (completeStep false oracle fs fname).outcome = Outcome.failed ∧
        (completeStep false oracle fs fname).calls = 3)) := by
  constructor
  · intro oracle h
    have hg := generateE_all429 oracle h
    refine ⟨by rw [hg], by rw [hg], by rw [hg]; decide, by rw [hg]; decide,
      by rw [hg]; decide, ?_⟩
    intro fs fname hfs
    constructor <;> simp [elevenStep, hfs, hg]
  · intro oracle h
    have hg := generate_audio_all429 oracle h
    refine ⟨by rw [hg], by rw [hg], by rw [hg]; decide, by rw [hg]; decide, ?_⟩
    intro fs fname hfs
    have hfa : fileAtLeast fs fname 10000 = false := by simp [fileAtLeast, hfs]
    constructor <;> simp [completeStep, hfa, hg]

/-- Witness for C2: concrete always-429 providers yield exactly 5 (base) and
3 (complete) collaborator invocations. -/
theorem C2_rate_limited_exhausts_attempts_witness :
    (generateE (fun _ => RespE.http 429 [] true)).calls = 5 ∧
    (generate_audio (fun _ => RespC.http 429 0)).calls = 3 :=
  ⟨(C2_rate_limited_exhausts_attempts.1 _ (fun _ => ⟨[], true, rfl⟩)).1,
   (C2_rate_limited_exhausts_attempts.2 _ (fun _ => ⟨0, rfl⟩)).1⟩

/-- C3: When the collaborator fails rate-limited on attempts 1..k-1 and
succeeds on attempt k (k at most the attempt budget), the drivers invoke it
exactly k times and record the outcome generated: base ElevenLabs driver and
vertex driver (budget 5, tenacity attempts numbered from 1), complete variant
(budget 3, loop indices numbered from 0). -/
theorem C3_success_after_rate_limits :
    (∀ (oracle : Nat → RespE) (k : Nat) (chunks : List Nat),
      1 ≤ k → k ≤ 5 →
      (∀ i, 1 ≤ i → i < k → ∃ c t, oracle i = RespE.http 429 c t) →
      oracle k = RespE.http 200 chunks true →
      (generateE oracle).calls = k ∧
      (generateE oracle).result = .ok (chunks, true) ∧
      (∀ (fs : FS) (fname : String), fsGet fs fname = none →
        (elevenStep oracle fs fname).outcome = Outcome.generated chunks.sum ∧
        (elevenStep oracle fs fname).calls = k)) ∧
    (∀ (oracle : Nat → RespC) (k sz : Nat),
      1 ≤ k → k ≤ 3 → 1 ≤ sz →
      (∀ i, i < k - 1 → ∃ s, oracle i = RespC.http 429 s) →
      oracle (k - 1) = RespC.http 200 sz →
      (generate_audio oracle).calls = k ∧
      (generate_audio oracle).result = .ok sz) ∧
    (∀ (oracle : Nat → RespV) (k sz : Nat),
      1 ≤ k → k ≤ 5 →
      (∀ i, 1 ≤ i → i < k → oracle i = RespV.resourceExhausted) →
      oracle k = RespV.ok sz →
      (generate_and_save_image_with_retry oracle).calls = k ∧
      (generate_and_save_image_with_retry oracle).result = .ok sz ∧
      (∀ (fs : FS) (fname : String), fsGet fs fname = none →
        (vertexStep oracle fs fname).outcome = Outcome.generated sz ∧
        (vertexStep oracle fs fname).calls = k)) := by
  refine ⟨?_, ?_, ?_⟩
  · intro oracle k chunks hk1 hk5 hfail hok
    have hfail' : ∀ i, i < k - 1 →
        ∃ e, (fun n => classifyE (oracle n)) (1 + i) = .err e ∧
          is_http_429_error e = true := by
      intro i hi
      obtain ⟨c, t, h⟩ := hfail (1 + i) (by omega) (by omega)
      exact ⟨.httpError 429, classifyE_rate_limited c t h, rfl⟩
    have hok' : (fun n => classifyE (oracle n)) (1 + (k - 1)) = .ok (chunks, true) := by
      have heq : 1 + (k - 1) = k := by omega
      simp only [heq]
      simp [hok, classifyE]
    have hmain := retryLoop_first_ok (fun n => classifyE (oracle n))
      is_http_429_error wait_exponential (chunks, true) (k - 1) 5 1 (by omega)
      hfail' hok'
    have hres : (generateE oracle).result = .ok (chunks, true) := hmain.1
    have hcalls : (generateE oracle).calls = k := by
      have h2 : (generateE oracle).calls = k - 1 + 1 := hmain.2
      omega
    refine ⟨hcalls, hres, ?_⟩
    intro fs fname hfs
    constructor
    · simp [elevenStep, hfs, hres]
    · simp [elevenStep, hfs, hres, hcalls]
  · intro oracle k sz hk1 hk3 hsz hfail hok
    have hfail' : ∀ i, i < k - 1 →
        ∃ e, (fun n => classifyC (oracle n)) (0 + i) = .err e ∧
          (fun _ : ErrC => true) e = true := by
      intro i hi
      obtain ⟨s, h⟩ := hfail i hi
      exact ⟨.apiError 429, by simp [classifyC, h], rfl⟩
    have hok' : (fun n => classifyC (oracle n)) (0 + (k - 1)) = .ok sz := by
      have hne : sz ≠ 0 := by omega
      simp [hok, classifyC, hne]
    have hmain := retryLoop_first_ok (fun n => classifyC (oracle n))
      (fun _ => true) (fun _ => RETRY_DELAY) sz (k - 1) MAX_RETRIES 0
      (by unfold MAX_RETRIES; omega) hfail' hok'
    have hcalls : (generate_audio oracle).calls = k := by
      have h2 : (generate_audio oracle).calls = k - 1 + 1 := hmain.2
      omega
    exact ⟨hcalls, hmain.1⟩
  · intro oracle k sz hk1 hk5 hfail hok
    have hfail' : ∀ i, i < k - 1 →
        ∃ e, (fun n => classifyV (oracle n)) (1 + i) = .err e ∧
          isResourceExhausted e = true := by
      intro i hi
      have h := hfail (1 + i) (by omega) (by omega)
      exact ⟨.resourceExhausted, by simp [classifyV, h], rfl⟩
    have hok' : (fun n => classifyV (oracle n)) (1 + (k - 1)) = .ok sz := by
      have heq : 1 + (k - 1) = k := by omega
      simp only [heq]
      simp [hok, classifyV]
    have hmain := retryLoop_first_ok (fun n => classifyV (oracle n))
      isResourceExhausted wait_exponential sz (k - 1) 5 1 (by omega) hfail' hok'
    have hres : (generate_and_save_image_with_retry oracle).result = .ok sz := hmain.1
    have hcalls : (generate_and_save_image_with_retry oracle).calls = k := by
      have h2 : (generate_and_save_image_with_retry oracle).calls = k - 1 + 1 := hmain.2
      omega
    refine ⟨hcalls, hres, ?_⟩
    intro fs fname hfs
    constructor
    · simp [vertexStep, hfs, hres]
    · simp [vertexStep, hfs, hres, hcalls]

/-- Witness for C3: a provider that is rate-limited on attempt 1 and succeeds
on attempt 2 is invoked exactly twice by the base driver, which then records
a generated outcome of the delivered size. -/
theorem C3_success_after_rate_limits_witness :
    (generateE (fun n => if n = 1 then RespE.http 429 [] true
      else RespE.http 200 [5000] true)).calls = 2 ∧
    (elevenStep (fun n => if n = 1 then RespE.http 429 [] true
      else RespE.http 200 [5000] true) [] ("a.mp3")).outcome =
        Outcome.generated 5000 := by
  have h := C3_success_after_rate_limits.1
    (fun n => if n = 1 then RespE.http 429 [] true else RespE.http 200 [5000] true)
    2 [5000] (by decide) (by decide)
    (fun i h1 h2 => by
      have hi : i = 1 := by omega
      subst hi
      exact ⟨[], true, rfl⟩)
    (by rfl)
  refine ⟨h.1, ?_⟩
  have h2 := (h.2.2 [] ("a.mp3") rfl).1
  simpa using h2

/-- C4 (code bug in the base variant): the complete and fixed variants treat
an HTTP-200 response with a zero-byte body as a failure and retry it, but the
base variant's `generate` performs no emptiness check at all: an empty 200
body is returned as success after a single call, and `main` records a
generated outcome of 0 bytes, writing a zero-byte file — exactly the failure
mode that `generate_elevenlabs_audio_fixed.py` and `check_zero_files.py`
exist to repair. -/
theorem C4_empty_body_divergence :
    (generateE (fun _ => RespE.http 200 [] true)).result = .ok ([], true) ∧
    (generateE (fun _ => RespE.http 200 [] true)).calls = 1 ∧
    elevenStep (fun _ => RespE.http 200 [] true) [] ("a.mp3") =
      ⟨.generated 0, [("a.mp3", 0)], 1⟩ ∧
    generate_audio (fun _ => RespC.http 200 0) =
      ⟨.err .emptyResponse, 3, [2, 2]⟩ ∧
    generateF (fun _ => RespE.http 200 [] true) =
      ⟨.err .emptyResponse, 3, [2, 2]⟩ := by
  refine ⟨by decide, by decide, by decide, by decide, by decide⟩

/-- C5: every record of the batch receives exactly one outcome, in input
order, for every per-record failure pattern (no failure aborts the loop); in
the spec's 3-record scenario where record 2 fails, records 1 and 3 still
reach generated outcomes and the batch lists exactly the one failure. -/
theorem C5_batch_runs_to_completion :
    (∀ (oracles : String → Nat → RespE) (fs : FS) (records : List String),
      ((runEleven oracles fs records).outcomes).map Prod.fst = records) ∧
    (∀ (oracles : String → Nat → RespV) (fs : FS) (records : List String),
      ((runVertex oracles fs records).outcomes).map Prod.fst = records) ∧
    (runEleven (fun r _ => if r = "b" then RespE.http 500 [] true
        else RespE.http 200 [4096, 1000] true) [] ["a", "b", "c"]).outcomes =
      [("a", .generated 5096), ("b", .failed), ("c", .generated 5096)] ∧
    ((runEleven (fun r _ => if r = "b" then RespE.http 500 [] true
        else RespE.http 200 [4096, 1000] true) [] ["a", "b", "c"]).outcomes.filter
          (fun q => isFailed q.2)).map Prod.fst = ["b"] := by
  refine ⟨?_, ?_, by decide, by decide⟩
  · intro oracles fs records
    exact runBatch_outcomes_fst _ records fs
  · intro oracles fs records
    exact runBatch_outcomes_fst _ records fs

/-- C6 counterexample: in the complete variant a failure-free first run does
not make the second run call-free — a record successfully generated with
5000 bytes (below the 10000-byte skip threshold) has no failure in run 1, yet
run 2 invokes the collaborator for it again (1 call, not 0). -/
theorem C6_counterexample :
    (∀ q ∈ (runComplete false (fun _ _ => RespC.http 200 5000) [] ["a"]).outcomes,
      q.2 ≠ Outcome.failed) ∧
    (runComplete false (fun _ _ => RespC.http 200 5000)
      (runComplete false (fun _ _ => RespC.http 200 5000) [] ["a"]).fs
      ["a"]).totalCalls = 1 ∧
    (runComplete false (fun _ _ => RespC.http 200 5000)
      (runComplete false (fun _ _ => RespC.http 200 5000) [] ["a"]).fs
      ["a"]).totalCalls ≠ 0 := by
  refine ⟨by decide, by decide, by decide⟩

/-- C6 (amended): idempotence holds unconditionally for the base variant and
for the fixed variant — a failure-free run leaves every record's output
present (in the fixed variant necessarily non-empty, since its generate
rejects empty first chunks), so an immediately repeated run skips every
record with zero collaborator calls — and holds for the complete variant
under the extra condition, violated by the counterexample, that every
successful generation yields at least the 10000-byte completeness
threshold. -/
theorem C6_amended_idempotence :
    (∀ (oracles : String → Nat → RespE) (fs : FS) (records : List String),
      (∀ q ∈ (runEleven oracles fs records).outcomes, q.2 ≠ Outcome.failed) →
      runEleven oracles (runEleven oracles fs records).fs records =
        ⟨records.map (fun r => (r, Outcome.skipped)),
         (runEleven oracles fs records).fs, 0⟩) ∧
    (∀ (oracles : String → Nat → RespC) (fs : FS) (records : List String),
      (∀ r i s, classifyC (oracles r i) = .ok s → 10000 ≤ s) →
      (∀ q ∈ (runComplete false oracles fs records).outcomes,
        q.2 ≠ Outcome.failed) →
      runComplete false oracles (runComplete false oracles fs records).fs records =
        ⟨records.map (fun r => (r, Outcome.skipped)),
         (runComplete false oracles fs records).fs, 0⟩) ∧
    (∀ (oracles : String → Nat → RespE) (fs : FS) (records : List String),
      (∀ q ∈ (runFixed false oracles fs records).outcomes,
        q.2 ≠ Outcome.failed) →
      runFixed false oracles (runFixed false oracles fs records).fs records =
        ⟨records.map (fun r => (r, Outcome.skipped)),
         (runFixed false oracles fs records).fs, 0⟩) := by
  refine ⟨?_, ?_, ?_⟩
  · intro oracles fs records hok
    have hgood := runBatch_good_after
      (fun fs r => elevenStep (oracles r) fs r)
      (fun fs r => (fsGet fs r).isSome = true)
      (fun fs r x h => elevenStep_mono (oracles r) fs r x h)
      (fun fs r h => elevenStep_establish (oracles r) fs r h)
      records fs hok
    exact runBatch_all_skip _ _
      (fun fs r h => elevenStep_skip (oracles r) fs r h) records _ hgood
  · intro oracles fs records hsz hok
    have hgood := runBatch_good_after
      (fun fs r => completeStep false (oracles r) fs r)
      (fun fs r => ∃ sz, fsGet fs r = some sz ∧ 10000 ≤ sz)
      (fun fs r x h => completeStep_mono (oracles r) fs r x (hsz r) h)
      (fun fs r h => completeStep_establish (oracles r) fs r (hsz r) h)
      records fs hok
    have hskip : ∀ (fs2 : FS) (r : String),
        (∃ sz, fsGet fs2 r = some sz ∧ 10000 ≤ sz) →
        completeStep false (oracles r) fs2 r = ⟨.skipped, fs2, 0⟩ := by
      intro fs2 r h
      exact completeStep_skip (oracles r) fs2 r
        ((fileAtLeast_iff fs2 r 10000).mpr h)
    exact runBatch_all_skip _ _ hskip records _ hgood
  · intro oracles fs records hok
    have hgood := runBatch_good_after
      (fun fs r => fixedStep false (oracles r) fs r)
      (fun fs r => ∃ sz, fsGet fs r = some sz ∧ 1 ≤ sz)
      (fun fs r x h => fixedStep_mono (oracles r) fs r x h)
      (fun fs r h => fixedStep_establish (oracles r) fs r h)
      records fs hok
    have hskip : ∀ (fs2 : FS) (r : String),
        (∃ sz, fsGet fs2 r = some sz ∧ 1 ≤ sz) →
        fixedStep false (oracles r) fs2 r = ⟨.skipped, fs2, 0⟩ := by
      intro fs2 r h
      exact fixedStep_skip (oracles r) fs2 r ((fileAtLeast_iff fs2 r 1).mpr h)
    exact runBatch_all_skip _ _ hskip records _ hgood

/-- Witness for C6 (amended): after a failure-free run over one record, the
immediately repeated run skips it with zero calls, in the base variant and in
the fixed variant. -/
theorem C6_amended_idempotence_witness :
    runEleven (fun _ _ => RespE.http 200 [20000] true)
      (runEleven (fun _ _ => RespE.http 200 [20000] true) [] ["a"]).fs ["a"] =
      ⟨[("a", Outcome.skipped)],
       (runEleven (fun _ _ => RespE.http 200 [20000] true) [] ["a"]).fs, 0⟩ ∧
    runFixed false (fun _ _ => RespE.http 200 [20000] true)
      (runFixed false (fun _ _ => RespE.http 200 [20000] true) [] ["a"]).fs ["a"] =
      ⟨[("a", Outcome.skipped)],
       (runFixed false (fun _ _ => RespE.http 200 [20000] true) [] ["a"]).fs, 0⟩ :=
  ⟨C6_amended_idempotence.1 _ [] ["a"] (by decide),
   C6_amended_idempotence.2.2 _ [] ["a"] (by decide)⟩

/-- C7 counterexample: in the complete variant a terminal error (HTTP 500,
neither transient nor rate-limited) is retried — the collaborator is invoked
3 times for the record, not exactly once. -/
theorem C7_counterexample :
    (generate_audio (fun _ => RespC.http 500 123)).calls = 3 ∧
    (generate_audio (fun _ => RespC.http 500 123)).result =
      .err (.apiError 500) ∧
    (completeStep false (fun _ => RespC.http 500 123) [] ("a.mp3")).calls = 3 := by
  refine ⟨by decide, by decide, by decide⟩

/-- C7 (amended): the tenacity-based drivers (base ElevenLabs and vertex)
fail a record on a terminal (non-429 / non-ResourceExhausted) error after
exactly one collaborator invocation and no backoff sleeps; the complete
variant instead retries every error, terminal included, up to its 3 configured
attempts. -/
theorem C7_amended_terminal_not_retried :
    (∀ (oracle : Nat → RespE) (e : ErrE),
      classifyE (oracle 1) = .err e → is_http_429_error e = false →
      generateE oracle = ⟨.err e, 1, []⟩ ∧
      (∀ (fs : FS) (fname : String), fsGet fs fname = none →
        (elevenStep oracle fs fname).outcome = Outcome.failed ∧
        (elevenStep oracle fs fname).calls = 1)) ∧
    (∀ oracle : Nat → RespV, oracle 1 = RespV.otherError →
      generate_and_save_image_with_retry oracle = ⟨.err .otherError, 1, []⟩ ∧
      (∀ (fs : FS) (fname : String), fsGet fs fname = none →
        (vertexStep oracle fs fname).outcome = Outcome.failed ∧
        (vertexStep oracle fs fname).calls = 1)) ∧
    (∀ oracle : Nat → RespC, (∀ n, ∃ s, oracle n = RespC.http 500 s) →
      (generate_audio oracle).calls = 3) := by
  refine ⟨?_, ?_, ?_⟩
  · intro oracle e hc hp
    have hg : generateE oracle = ⟨.err e, 1, []⟩ :=
      retryLoop_first_err_stop (fun n => classifyE (oracle n))
        is_http_429_error wait_exponential e 1 hc hp 5
    refine ⟨hg, ?_⟩
    intro fs fname hfs
    constructor <;> simp [elevenStep, hfs, hg]
  · intro oracle hc
    have hg : generate_and_save_image_with_retry oracle =
        ⟨.err .otherError, 1, []⟩ :=
      retryLoop_first_err_stop (fun n => classifyV (oracle n))
        isResourceExhausted wait_exponential .otherError 1
        (by simp [classifyV, hc]) rfl 5
    refine ⟨hg, ?_⟩
    intro fs fname hfs
    constructor <;> simp [vertexStep, hfs, hg]
  · intro oracle h
    have hc : ∀ i, (fun n => classifyC (oracle n)) i = .err (.apiError 500) := by
      intro i
      obtain ⟨s, hi⟩ := h i
      simp [classifyC, hi]
    have hg : generate_audio oracle =
        ⟨.err (.apiError 500), 3, waitsFrom (fun _ => RETRY_DELAY) 0 2⟩ :=
      retryLoop_const_err (fun n => classifyC (oracle n)) (fun _ => true)
        (fun _ => RETRY_DELAY) (.apiError 500) hc rfl 2 0
    rw [hg]

/-- Witness for C7 (amended): an HTTP 500 on the first call leaves the base
driver at exactly one invocation and a failed record. -/
theorem C7_amended_terminal_not_retried_witness :
    generateE (fun _ => RespE.http 500 [] true) =
      ⟨.err (.httpError 500), 1, []⟩ ∧
    (elevenStep (fun _ => RespE.http 500 [] true) [] ("a.mp3")).calls = 1 := by
  have h := C7_amended_terminal_not_retried.1 (fun _ => RespE.http 500 [] true)
    (.httpError 500) (by decide) (by decide)
  exact ⟨h.1, (h.2 [] ("a.mp3") rfl).2⟩

/-- C8: when a record fails (in particular with retries exhausted), the A2A
tool deletes the zero-byte file it created at the resolved output path as a
side effect of the attempt, leaving the slot absent rather than zero-byte; an
empty successful stream is likewise failed and removed; and in the base CLI
driver a retries-exhausted failure occurs before the output file is ever
opened, so such an attempt creates no file at all (file system unchanged). -/
theorem C8_zero_byte_cleanup_on_failure :
    (∀ (oracle : Nat → RespE) (fs : FS) (fname : String) (e : ErrE),
      (generateE oracle).result = .err e →
      (a2aStep oracle fs fname).outcome = Outcome.failed ∧
      fsGet (a2aStep oracle fs fname).fs (a2aOutputFilename fname) = none) ∧
    (∀ (oracle : Nat → RespE) (fs : FS) (fname : String),
      (generateE oracle).result = .ok ([], true) →
      (a2aStep oracle fs fname).outcome = Outcome.failed ∧
      fsGet (a2aStep oracle fs fname).fs (a2aOutputFilename fname) = none) ∧
    (∀ (oracle : Nat → RespE) (fs : FS) (fname : String),
      (∀ n, ∃ c t, oracle n = RespE.http 429 c t) → fsGet fs fname = none →
      (elevenStep oracle fs fname).outcome = Outcome.failed ∧
      (elevenStep oracle fs fname).fs = fs) := by
  refine ⟨?_, ?_, ?_⟩
  · intro oracle fs fname e h
    constructor <;> simp [a2aStep, h, fsGet_fsDel_self]
  · intro oracle fs fname h
    constructor <;> simp [a2aStep, h, fsGet_fsDel_self]
  · intro oracle fs fname h429 hfs
    have hg := generateE_all429 oracle h429
    constructor <;> simp [elevenStep, hfs, hg]

/-- Witness for C8: with an always-429 provider, the A2A attempt over a slot
holding a 999999-byte artifact ends failed with the slot absent, and the base
driver's retries-exhausted failure leaves its file system untouched. -/
theorem C8_zero_byte_cleanup_on_failure_witness :
    (a2aStep (fun _ => RespE.http 429 [] true) [("x.mp3", 999999)]
      ("x.mp3")).outcome = Outcome.failed ∧
    fsGet (a2aStep (fun _ => RespE.http 429 [] true) [("x.mp3", 999999)]
      ("x.mp3")).fs (a2aOutputFilename ("x.mp3")) = none ∧
    (elevenStep (fun _ => RespE.http 429 [] true) [] ("y.mp3")).fs = [] := by
  have h1 := C8_zero_byte_cleanup_on_failure.1 (fun _ => RespE.http 429 [] true)
    [("x.mp3", 999999)] ("x.mp3") (.httpError 429) (by decide)
  have h3 := C8_zero_byte_cleanup_on_failure.2.2 (fun _ => RespE.http 429 [] true)
    [] ("y.mp3") (fun _ => ⟨[], true, rfl⟩) rfl
  exact ⟨h1.1, h1.2, h3.2⟩

/-- C9 counterexample: the CLI drivers join the raw `filename` onto the
output directory with no sanitization, so `"../../evil.mp3"` resolves to a
path outside the output directory, and `"clip"` (no extension) keeps no
extension. -/
theorem C9_counterexample :
    isStrictlyWithin ["out"] (resolveCLI ["out"] ("../../evil.mp3")) = false ∧
    resolveCLI ["out"] ("../../evil.mp3") = ["out", "..", "..", "evil.mp3"] ∧
    normalizeParts (resolveCLI ["out"] ("../../evil.mp3")) = ["..", "evil.mp3"] ∧
    resolveCLI ["out"] ("clip") = ["out", "clip"] := by
  refine ⟨by decide, by decide, by decide, by decide⟩

/-- C9 (amended): only the A2A tool variant sanitizes: its resolved output
path extends the output directory by a sanitized basename, which always lies
strictly within the directory and always carries the `.mp3` extension
(traversal components stripped, missing extension added); the CLI drivers —
the counterexample — use the raw filename unsanitized. -/
theorem C9_amended_a2a_sanitizes :
    (∀ (dir : List String) (fname : String), normalizeParts dir = dir →
      isStrictlyWithin dir (resolveA2A dir fname) = true) ∧
    (∀ fname : String, ∃ b : String, a2aOutputFilename fname = b ++ ".mp3") ∧
    a2aOutputFilename ("../../evil.mp3") = "evil.mp3" ∧
    a2aOutputFilename ("clip") = "clip.mp3" := by
  refine ⟨?_, ?_, by decide, by decide⟩
  · intro dir fname hdir
    unfold isStrictlyWithin resolveA2A
    rw [normalizeParts_snoc dir _ hdir (a2aOutputFilename_ne_dotdot fname)]
    exact strictUnder_snoc dir _
  · intro fname
    exact ⟨(splitext (pathlibName fname)).1, rfl⟩

/-- Witness for C9 (amended): the traversal filename resolves strictly inside
the output directory under the A2A sanitization. -/
theorem C9_amended_a2a_sanitizes_witness :
    isStrictlyWithin ["out"] (resolveA2A ["out"] ("../../evil.mp3")) = true :=
  C9_amended_a2a_sanitizes.1 ["out"] ("../../evil.mp3") (by decide)

/-- C10: the A2A tool performs no eligibility check — the collaborator is
invoked (at least once) for every prompt whatever the file-system state — and
the truncation it performs before that invocation (`a2aPreCall`) leaves a
zero-byte file at the resolved output path; concretely, a pre-existing
999999-byte complete artifact is destroyed by a failing attempt, with the
slot absent afterwards. -/
theorem C10_a2a_truncates_before_generate :
    (∀ (oracle : Nat → RespE) (fs : FS) (fname : String),
      1 ≤ (a2aStep oracle fs fname).calls) ∧
    (∀ (fs : FS) (fname : String),
      fsGet (a2aPreCall fs fname) (a2aOutputFilename fname) = some 0) ∧
    (a2aStep (fun _ => RespE.http 429 [] true) [("clip.mp3", 999999)]
      ("clip.mp3")).fs = [] ∧
    (a2aStep (fun _ => RespE.http 429 [] true) [("clip.mp3", 999999)]
      ("clip.mp3")).outcome = Outcome.failed := by
  refine ⟨?_, ?_, by decide, by decide⟩
  · intro oracle fs fname
    rw [a2aStep_calls]
    exact retryLoop_calls_pos _ _ _ 1 5
  · intro fs fname
    exact fsGet_fsSet_self fs _ 0

end Multiverse
